import Mathlib

/-!
Verification of the filesystem compatibility shim consisting of the
operation pairs `rename`/`renameSync` and `readTextFile`/`readTextFileSync`.

The read-text-file pair is embedded from `src/fs/unstable_read_text_file.ts`.
Its collaborators (the runtime-detection flag, the byte-reading primitive
`readFile`/`readFileSync`, the error-mapping utility `mapError`, the origin
runtime's native read-text primitives, and the lenient UTF-8 text decoder)
are external to the shown source and are modelled from the spec.

The rename pair's implementation file is not part of the shown source (only
its test file is), so `rename`/`renameSync` are modelled from the spec's
contract: the platform-dependent outcome table of spec section 4.1 and the
error taxonomy of spec section 7.

Filesystem state is a flat association list from paths to entries; this is
exactly the level of detail the spec's outcome table distinguishes (regular
file with byte content, directory that is empty or not, symbolic link).
-/

/-- Error kinds of the origin runtime's error vocabulary. The spec fixes only
the kind NotFound (missing rename source); every other failure is a generic,
unspecified kind. -/
inductive ErrorKind
  | NotFound
  | Generic
deriving DecidableEq

/-- An error in the origin runtime's vocabulary, carrying its kind
discriminant. -/
structure MappedError where
  kind : ErrorKind
deriving DecidableEq

/-- A raw native error of the fallback runtime, carrying an errno-style code
string such as ENOENT. -/
structure NativeError where
  code : String
deriving DecidableEq

/-- Modelled from the spec: the generic error-mapping utility `mapError`
(file `_map_error.ts`, absent from the shown source). It translates a
fallback-runtime native error into the origin runtime's error vocabulary.
The only mapping the spec determines is a missing-entry error (ENOENT) to
the NotFound kind; all other native errors map to the generic kind. -/
def mapError (e : NativeError) : MappedError :=
  if e.code = "ENOENT" then ⟨ErrorKind.NotFound⟩ else ⟨ErrorKind.Generic⟩

/-- An error as surfaced by the read-text operations: either an error already
in the origin runtime's vocabulary (origin-native errors and mapped
fallback errors), or a raw, unmapped fallback-runtime native error. The
second alternative is representable so that never producing it is a
statement, not a typing accident. -/
inductive FsError
  | mapped (e : MappedError)
  | native (e : NativeError)
deriving DecidableEq

/-- UTF-8 encoding of a single Unicode code point, as a list of byte
values. -/
def utf8EncodeCode (n : Nat) : List Nat :=
  if n < 0x80 then [n]
  else if n < 0x800 then [0xC0 + n / 64, 0x80 + n % 64]
  else if n < 0x10000 then [0xE0 + n / 4096, 0x80 + n / 64 % 64, 0x80 + n % 64]
  else [0xF0 + n / 262144, 0x80 + n / 4096 % 64, 0x80 + n / 64 % 64, 0x80 + n % 64]

/-- UTF-8 byte content of a string. -/
def utf8Encode (s : String) : List Nat :=
  (s.data.map Char.toNat).flatMap utf8EncodeCode

/-- Lower bound for the first continuation byte of a three-byte sequence:
lead byte 0xE0 requires 0xA0 (rejecting overlong encodings). -/
def utf8Cont2Lo (b : Nat) : Nat := if b = 0xE0 then 0xA0 else 0x80

/-- Upper bound for the first continuation byte of a three-byte sequence:
lead byte 0xED allows at most 0x9F (rejecting surrogate code points). -/
def utf8Cont2Hi (b : Nat) : Nat := if b = 0xED then 0x9F else 0xBF

/-- Lower bound for the first continuation byte of a four-byte sequence:
lead byte 0xF0 requires 0x90 (rejecting overlong encodings). -/
def utf8Cont3Lo (b : Nat) : Nat := if b = 0xF0 then 0x90 else 0x80

/-- Upper bound for the first continuation byte of a four-byte sequence:
lead byte 0xF4 allows at most 0x8F (staying below 0x110000). -/
def utf8Cont3Hi (b : Nat) : Nat := if b = 0xF4 then 0x8F else 0xBF

/-- One step of lenient UTF-8 decoding: given the first byte and the
remaining bytes, produce the decoded code point and the bytes left over.
A well-formed sequence decodes to its code point; any malformed input
yields the replacement code point 0xFFFD (the malformed sequence and its
matched continuation bytes are consumed). -/
def utf8Step (b : Nat) (bs : List Nat) : Nat × List Nat :=
  if b ≤ 0x7F then (b, bs)
  else if 0xC2 ≤ b ∧ b ≤ 0xDF then
    match bs with
    | b2 :: bs2 =>
      if 0x80 ≤ b2 ∧ b2 ≤ 0xBF then ((b - 0xC0) * 64 + (b2 - 0x80), bs2)
      else (0xFFFD, bs2)
    | [] => (0xFFFD, [])
  else if 0xE0 ≤ b ∧ b ≤ 0xEF then
    match bs with
    | b2 :: b3 :: bs3 =>
      if (utf8Cont2Lo b ≤ b2 ∧ b2 ≤ utf8Cont2Hi b) ∧ (0x80 ≤ b3 ∧ b3 ≤ 0xBF) then
        ((b - 0xE0) * 4096 + (b2 - 0x80) * 64 + (b3 - 0x80), bs3)
      else (0xFFFD, bs3)
    | _ => (0xFFFD, [])
  else if 0xF0 ≤ b ∧ b ≤ 0xF4 then
    match bs with
    | b2 :: b3 :: b4 :: bs4 =>
      if (utf8Cont3Lo b ≤ b2 ∧ b2 ≤ utf8Cont3Hi b) ∧ (0x80 ≤ b3 ∧ b3 ≤ 0xBF) ∧
          (0x80 ≤ b4 ∧ b4 ≤ 0xBF) then
        ((b - 0xF0) * 262144 + (b2 - 0x80) * 4096 + (b3 - 0x80) * 64 + (b4 - 0x80), bs4)
      else (0xFFFD, bs4)
    | _ => (0xFFFD, [])
  else (0xFFFD, bs)

/-- Decoding loop: the fuel bounds the number of decoded code points. Each
step consumes at least one byte, so fuel equal to the byte count is always
enough; running out of fuel can therefore not happen in `decodeUtf8Code`. -/
def decodeUtf8Go : Nat → List Nat → List Nat
  | 0, _ => []
  | _ + 1, [] => []
  | fuel + 1, b :: bs => (utf8Step b bs).1 :: decodeUtf8Go fuel (utf8Step b bs).2

/-- Modelled from the spec: lenient UTF-8 decoding of a byte list to a list
of Unicode code points (the decode step of TextDecoder, which is a runtime
builtin, not repository code). A well-formed sequence decodes to its code
points; malformed input yields replacement code points 0xFFFD, so decoding
is total and never raises. -/
def decodeUtf8Code (bytes : List Nat) : List Nat :=
  decodeUtf8Go bytes.length bytes

/-- Modelled from the spec: the TextDecoder("utf-8") lenient decode used by
both read-text functions, producing a string from arbitrary bytes. -/
def decodeUtf8 (bytes : List Nat) : String :=
  ⟨(decodeUtf8Code bytes).map Char.ofNat⟩

/-- A filesystem entry as seen by the read-text operations: a regular file
with byte content, or a directory. -/
inductive FileEntry
  | file (content : List Nat)
  | dir
deriving DecidableEq

/-- The world a read-text call executes in: the process-wide
runtime-detection flag `isDeno` (from `_utils.ts`, absent from the shown
source) and the store backing both runtimes' primitives. Modelling both
primitives over one store realises the premise that the underlying
primitives agree on what is at each path. -/
structure World where
  isDeno : Bool
  entries : List (String × FileEntry)
deriving DecidableEq

/-- Path lookup in the read-side store. -/
def findEntry : List (String × FileEntry) → String → Option FileEntry
  | [], _ => none
  | (q, e) :: rest, path => if q = path then some e else findEntry rest path

/-- Modelled from the spec: the optional read configuration
(`ReadFileOptions` of `unstable_types.ts`, absent from the shown source);
its recognized options are opaque pass-through flags, modelled as one
opaque optional field. -/
structure ReadFileOptions where
  signal : Option Nat
deriving DecidableEq

/-- Embedding of the JavaScript spread expression over the optional
configuration: spreading the absent value produces an empty options object,
and spreading an object produces a fresh object with the same fields. -/
def spreadOptions : Option ReadFileOptions → ReadFileOptions
  | none => ⟨none⟩
  | some o => ⟨o.signal⟩

/-- The configuration argument the origin branch of readTextFile passes to
the origin primitive, embedded from the source call
`Deno.readTextFile(path, \x7b ...options \x7d)`: always a present options
object, namely the spread of the caller's configuration. -/
def denoReadTextFileArg (options : Option ReadFileOptions) : Option ReadFileOptions :=
  some (spreadOptions options)

/-- Modelled from the spec: the fallback runtime's asynchronous byte-reading
primitive `readFile` (sibling component `unstable_read_file.ts`, absent from
the shown source). It yields the byte content of a regular file, and raises
a native error otherwise: ENOENT for a missing path, EISDIR for a
directory. The configuration is an opaque pass-through and does not affect
the outcome in this model. -/
def readFile (w : World) (path : String) (_options : Option ReadFileOptions) :
    Except NativeError (List Nat) :=
  match findEntry w.entries path with
  | none => Except.error ⟨"ENOENT"⟩
  | some FileEntry.dir => Except.error ⟨"EISDIR"⟩
  | some (FileEntry.file content) => Except.ok content

/-- Modelled from the spec: the synchronous byte-reading primitive
`readFileSync`, with behavior identical to `readFile` (it takes no
configuration argument). -/
def readFileSync (w : World) (path : String) : Except NativeError (List Nat) :=
  readFile w path none

namespace Deno

/-- Modelled from the spec: the origin runtime's native asynchronous
read-text primitive (an opaque dependency assumed correct). It returns the
lenient UTF-8 decoding of the file's byte content; a missing path fails
with the NotFound kind and a directory with a generic, non-NotFound kind,
already in the origin vocabulary. The configuration is opaque and does not
affect the outcome in this model. -/
def readTextFile (w : World) (path : String) (_options : Option ReadFileOptions) :
    Except FsError String :=
  match findEntry w.entries path with
  | none => Except.error (FsError.mapped ⟨ErrorKind.NotFound⟩)
  | some FileEntry.dir => Except.error (FsError.mapped ⟨ErrorKind.Generic⟩)
  | some (FileEntry.file content) => Except.ok (decodeUtf8 content)

/-- Modelled from the spec: the origin runtime's native synchronous
read-text primitive, identical in behavior to the asynchronous one and
taking no configuration argument. -/
def readTextFileSync (w : World) (path : String) : Except FsError String :=
  Deno.readTextFile w path none

end Deno

/-- Embedding of `readTextFile` (src/fs/unstable_read_text_file.ts, lines
31 to 46). On the origin runtime it returns the origin primitive applied to
the spread of the caller's configuration; on the fallback runtime it reads
bytes via `readFile` and decodes them, and any error caught from the byte
read is passed through `mapError` before being surfaced. The decode step is
total, so it raises nothing for the catch to map. -/
def readTextFile (w : World) (path : String) (options : Option ReadFileOptions) :
    Except FsError String :=
  if w.isDeno then
    Deno.readTextFile w path (denoReadTextFileArg options)
  else
    match readFile w path options with
    | Except.ok data => Except.ok (decodeUtf8 data)
    | Except.error error => Except.error (FsError.mapped (mapError error))

/-- Embedding of `readTextFileSync` (src/fs/unstable_read_text_file.ts,
lines 70 to 84). It takes no configuration argument; on the origin runtime
it calls the synchronous origin primitive, and on the fallback runtime it
reads bytes via `readFileSync`, decodes, and maps any caught error. -/
def readTextFileSync (w : World) (path : String) : Except FsError String :=
  if w.isDeno then
    Deno.readTextFileSync w path
  else
    match readFileSync w path with
    | Except.ok data => Except.ok (decodeUtf8 data)
    | Except.error error => Except.error (FsError.mapped (mapError error))

/-- The two filesystem-semantics families whose rename behavior diverges. -/
inductive OsFamily
  | posix
  | windows
deriving DecidableEq

/-- A filesystem entry as distinguished by the rename contract: a regular
file with byte content, a directory that is empty or not, or a symbolic
link to a target path. -/
inductive Entry
  | file (content : List Nat)
  | dir (isEmpty : Bool)
  | symlink (target : String)
deriving DecidableEq

/-- A filesystem for the rename operation: a flat association list from
paths to entries. -/
abbrev Fs := List (String × Entry)

/-- Path lookup in a rename-side filesystem. -/
def lookupEntry : Fs → String → Option Entry
  | [], _ => none
  | (q, e) :: rest, path => if q = path then some e else lookupEntry rest path

/-- Remove every binding of a path. -/
def removeEntry : Fs → String → Fs
  | [], _ => []
  | (q, e) :: rest, path =>
    if q = path then removeEntry rest path else (q, e) :: removeEntry rest path

/-- Bind a path to an entry, replacing any previous binding. -/
def setEntry (fs : Fs) (path : String) (e : Entry) : Fs :=
  (path, e) :: removeEntry fs path

/-- Modelled from the spec: the rename operation (its implementation file
`unstable_rename.ts` is absent from the shown source; only its test file is
present). The behavior follows the contract of spec section 4.1 and the
error taxonomy of spec section 7: a missing source fails with the NotFound
kind; a file onto an existing directory fails; a directory onto an existing
empty directory succeeds only on POSIX-like systems; a directory onto a
non-empty directory always fails; a directory onto an existing regular file
succeeds only on Windows-like systems; a directory onto a symbolic link
always fails, whatever the link's target; otherwise the source entry is
moved to the destination path, replacing what was there. -/
def rename (os : OsFamily) (fs : Fs) (src dst : String) : Except ErrorKind Fs :=
  match lookupEntry fs src with
  | none => Except.error ErrorKind.NotFound
  | some srcEnt =>
    let moved := setEntry (removeEntry fs src) dst srcEnt
    match srcEnt, lookupEntry fs dst with
    | _, none => Except.ok moved
    | Entry.file _, some (Entry.dir _) => Except.error ErrorKind.Generic
    | Entry.file _, some _ => Except.ok moved
    | Entry.dir _, some (Entry.dir true) =>
      if os = OsFamily.posix then Except.ok moved else Except.error ErrorKind.Generic
    | Entry.dir _, some (Entry.dir false) => Except.error ErrorKind.Generic
    | Entry.dir _, some (Entry.file _) =>
      if os = OsFamily.windows then Except.ok moved else Except.error ErrorKind.Generic
    | Entry.dir _, some (Entry.symlink _) => Except.error ErrorKind.Generic
    | Entry.symlink _, some (Entry.dir _) => Except.error ErrorKind.Generic
    | Entry.symlink _, some _ => Except.ok moved

/-- Modelled from the spec: the synchronous rename variant, whose contract
is identical behavior to `rename`, blocking instead of suspending. -/
def renameSync (os : OsFamily) (fs : Fs) (src dst : String) : Except ErrorKind Fs :=
  rename os fs src dst

deriving instance DecidableEq for Except

/-- A well-formed one-code-point sequence placed before any remaining bytes
is decoded back to exactly that code point by one decoding step. -/
theorem utf8Step_encode (n : Nat) (h : Nat.isValidChar n) (rest : List Nat) :
    ∃ b bs, utf8EncodeCode n ++ rest = b :: bs ∧ utf8Step b bs = (n, rest) := by
  have hv : n < 0xd800 ∨ (0xdfff < n ∧ n < 0x110000) := h
  by_cases h1 : n < 0x80
  · refine ⟨n, rest, by simp [utf8EncodeCode, if_pos h1], ?_⟩
    simp only [utf8Step, if_pos (show n ≤ 0x7F by omega)]
  · by_cases h2 : n < 0x800
    · refine ⟨0xC0 + n / 64, (0x80 + n % 64) :: rest,
        by simp [utf8EncodeCode, if_neg h1, if_pos h2], ?_⟩
      rw [utf8Step]
      have hA : ¬ (0xC0 + n / 64 ≤ 0x7F) := by omega
      have hB : 0xC2 ≤ 0xC0 + n / 64 ∧ 0xC0 + n / 64 ≤ 0xDF := by omega
      have hC : 0x80 ≤ 0x80 + n % 64 ∧ 0x80 + n % 64 ≤ 0xBF := by omega
      simp only [if_neg hA, if_pos hB, if_pos hC, Prod.mk.injEq]
      exact ⟨by omega, trivial⟩
    · by_cases h3 : n < 0x10000
      · refine ⟨0xE0 + n / 4096, (0x80 + n / 64 % 64) :: (0x80 + n % 64) :: rest,
          by simp [utf8EncodeCode, if_neg h1, if_neg h2, if_pos h3], ?_⟩
        rw [utf8Step]
        have hA : ¬ (0xE0 + n / 4096 ≤ 0x7F) := by omega
        have hB : ¬ (0xC2 ≤ 0xE0 + n / 4096 ∧ 0xE0 + n / 4096 ≤ 0xDF) := by omega
        have hC : 0xE0 ≤ 0xE0 + n / 4096 ∧ 0xE0 + n / 4096 ≤ 0xEF := by omega
        have hD : (utf8Cont2Lo (0xE0 + n / 4096) ≤ 0x80 + n / 64 % 64 ∧
            0x80 + n / 64 % 64 ≤ utf8Cont2Hi (0xE0 + n / 4096)) ∧
            (0x80 ≤ 0x80 + n % 64 ∧ 0x80 + n % 64 ≤ 0xBF) := by
          unfold utf8Cont2Lo utf8Cont2Hi
          split_ifs <;> omega
        simp only [if_neg hA, if_neg hB, if_pos hC, if_pos hD, Prod.mk.injEq]
        exact ⟨by omega, trivial⟩
      · refine ⟨0xF0 + n / 262144,
          (0x80 + n / 4096 % 64) :: (0x80 + n / 64 % 64) :: (0x80 + n % 64) :: rest,
          by simp [utf8EncodeCode, if_neg h1, if_neg h2, if_neg h3], ?_⟩
        rw [utf8Step]
        have hA : ¬ (0xF0 + n / 262144 ≤ 0x7F) := by omega
        have hB : ¬ (0xC2 ≤ 0xF0 + n / 262144 ∧ 0xF0 + n / 262144 ≤ 0xDF) := by omega
        have hC : ¬ (0xE0 ≤ 0xF0 + n / 262144 ∧ 0xF0 + n / 262144 ≤ 0xEF) := by omega
        have hD : 0xF0 ≤ 0xF0 + n / 262144 ∧ 0xF0 + n / 262144 ≤ 0xF4 := by omega
        have hE : (utf8Cont3Lo (0xF0 + n / 262144) ≤ 0x80 + n / 4096 % 64 ∧
            0x80 + n / 4096 % 64 ≤ utf8Cont3Hi (0xF0 + n / 262144)) ∧
            (0x80 ≤ 0x80 + n / 64 % 64 ∧ 0x80 + n / 64 % 64 ≤ 0xBF) ∧
            (0x80 ≤ 0x80 + n % 64 ∧ 0x80 + n % 64 ≤ 0xBF) := by
          unfold utf8Cont3Lo utf8Cont3Hi
          split_ifs <;> omega
        simp only [if_neg hA, if_neg hB, if_neg hC, if_pos hD, if_pos hE, Prod.mk.injEq]
        exact ⟨by omega, trivial⟩

/-- The decoding loop maps the empty byte list to the empty code-point list
at any fuel. -/
theorem decodeUtf8Go_nil (fuel : Nat) : decodeUtf8Go fuel [] = [] := by
  cases fuel <;> rfl

/-- Every encoded code point occupies at least one byte. -/
theorem utf8EncodeCode_length_pos (n : Nat) : 1 ≤ (utf8EncodeCode n).length := by
  unfold utf8EncodeCode
  split_ifs <;> simp

/-- Decoding the concatenated encodings of valid code points recovers the
code points, given at least one unit of fuel per encoded byte. -/
theorem decodeUtf8Go_flatMap (ns : List Nat) (h : ∀ n ∈ ns, Nat.isValidChar n)
    (fuel : Nat) (hf : (ns.flatMap utf8EncodeCode).length ≤ fuel) :
    decodeUtf8Go fuel (ns.flatMap utf8EncodeCode) = ns := by
  induction ns generalizing fuel with
  | nil => simp [decodeUtf8Go_nil]
  | cons n ns ih =>
    have hn : Nat.isValidChar n := h n (List.mem_cons_self n ns)
    have hns : ∀ m ∈ ns, Nat.isValidChar m := fun m hm => h m (List.mem_cons_of_mem n hm)
    obtain ⟨b, bs, he, hs⟩ := utf8Step_encode n hn (ns.flatMap utf8EncodeCode)
    rw [List.flatMap_cons, he]
    have hlen : (ns.flatMap utf8EncodeCode).length + 1 ≤ fuel := by
      have h1 := utf8EncodeCode_length_pos n
      have h2 : (utf8EncodeCode n ++ ns.flatMap utf8EncodeCode).length =
          (utf8EncodeCode n).length + (ns.flatMap utf8EncodeCode).length :=
        List.length_append _ _
      rw [List.flatMap_cons] at hf
      omega
    obtain ⟨f, rfl⟩ : ∃ f, fuel = f + 1 := ⟨fuel - 1, by omega⟩
    rw [decodeUtf8Go, hs]
    exact congrArg (n :: ·) (ih hns f (by omega))

/-- Round trip: lenient UTF-8 decoding of the UTF-8 encoding of a string
yields that string. -/
theorem decodeUtf8_utf8Encode (s : String) : decodeUtf8 (utf8Encode s) = s := by
  have hvalid : ∀ n ∈ s.data.map Char.toNat, Nat.isValidChar n := by
    intro n hn
    obtain ⟨c, _, rfl⟩ := List.mem_map.mp hn
    exact c.valid
  have hcode : decodeUtf8Code (utf8Encode s) = s.data.map Char.toNat :=
    decodeUtf8Go_flatMap _ hvalid _ le_rfl
  have hchars : ∀ l : List Char, (l.map Char.toNat).map Char.ofNat = l := by
    intro l
    induction l with
    | nil => rfl
    | cons c cs ih => simp [Char.ofNat_toNat, ih]
  show (⟨(decodeUtf8Code (utf8Encode s)).map Char.ofNat⟩ : String) = s
  rw [hcode, hchars]

/-- Removing a path removes its binding. -/
theorem lookupEntry_removeEntry_self (fs : Fs) (p : String) :
    lookupEntry (removeEntry fs p) p = none := by
  induction fs with
  | nil => rfl
  | cons hd tl ih =>
    obtain ⟨q, e⟩ := hd
    by_cases hq : q = p
    · simp [removeEntry, hq, ih]
    · simp [removeEntry, lookupEntry, hq, ih]

/-- Removing one path leaves other paths' bindings unchanged. -/
theorem lookupEntry_removeEntry_ne (fs : Fs) (p q : String) (h : q ≠ p) :
    lookupEntry (removeEntry fs p) q = lookupEntry fs q := by
  induction fs with
  | nil => rfl
  | cons hd tl ih =>
    obtain ⟨r, e⟩ := hd
    by_cases hr : r = p
    · subst hr
      simp [removeEntry, lookupEntry, show ¬ r = q from fun hh => h hh.symm, ih]
    · simp [removeEntry, hr, lookupEntry, ih]

/-- Binding a path makes lookup at that path yield the bound entry. -/
theorem lookupEntry_setEntry_self (fs : Fs) (p : String) (e : Entry) :
    lookupEntry (setEntry fs p e) p = some e := by
  simp [setEntry, lookupEntry]

/-- Binding one path leaves lookups at other paths to the remainder. -/
theorem lookupEntry_setEntry_ne (fs : Fs) (p q : String) (e : Entry) (h : p ≠ q) :
    lookupEntry (setEntry fs p e) q = lookupEntry (removeEntry fs p) q := by
  simp [setEntry, lookupEntry, h]

/-- A fallback-runtime read whose byte read succeeds returns the decoded
bytes. -/
theorem readTextFile_fallback_ok (w : World) (path : String)
    (options : Option ReadFileOptions) (data : List Nat) (hD : w.isDeno = false)
    (hr : readFile w path options = Except.ok data) :
    readTextFile w path options = Except.ok (decodeUtf8 data) := by
  simp [readTextFile, hD, hr]

/-- A fallback-runtime read whose byte read fails surfaces the mapped
error. -/
theorem readTextFile_fallback_err (w : World) (path : String)
    (options : Option ReadFileOptions) (e : NativeError) (hD : w.isDeno = false)
    (hr : readFile w path options = Except.error e) :
    readTextFile w path options = Except.error (FsError.mapped (mapError e)) := by
  simp [readTextFile, hD, hr]

/-- Synchronous analogue of `readTextFile_fallback_ok`. -/
theorem readTextFileSync_fallback_ok (w : World) (path : String) (data : List Nat)
    (hD : w.isDeno = false) (hr : readFileSync w path = Except.ok data) :
    readTextFileSync w path = Except.ok (decodeUtf8 data) := by
  simp [readTextFileSync, hD, hr]

/-- Synchronous analogue of `readTextFile_fallback_err`. -/
theorem readTextFileSync_fallback_err (w : World) (path : String) (e : NativeError)
    (hD : w.isDeno = false) (hr : readFileSync w path = Except.error e) :
    readTextFileSync w path = Except.error (FsError.mapped (mapError e)) := by
  simp [readTextFileSync, hD, hr]

/-- C1: for every call of rename or renameSync whose source path does not
exist, the operation fails specifically with the NotFound error kind, and
no other error kind is produced for this case. -/
theorem rename_missing_source_notFound (os : OsFamily) (fs : Fs) (src dst : String)
    (h : lookupEntry fs src = none) :
    rename os fs src dst = Except.error ErrorKind.NotFound ∧
    renameSync os fs src dst = Except.error ErrorKind.NotFound := by
  have h1 : rename os fs src dst = Except.error ErrorKind.NotFound := by
    simp [rename, h]
  exact ⟨h1, h1⟩

/-- Witness for C1 at a concrete empty filesystem. -/
theorem rename_missing_source_notFound_witness :
    rename OsFamily.posix [] "non-existent-file.txt" "new-name.txt" =
      Except.error ErrorKind.NotFound ∧
    renameSync OsFamily.posix [] "non-existent-file.txt" "new-name.txt" =
      Except.error ErrorKind.NotFound :=
  rename_missing_source_notFound OsFamily.posix [] "non-existent-file.txt" "new-name.txt" rfl

/-- C3: a successful rename (or renameSync) of a regular file to a free
destination path leaves no entry at the source path and produces a regular
file at the destination path with the original content. -/
theorem rename_regular_file_moves_content (os : OsFamily) (fs : Fs) (src dst : String)
    (content : List Nat) (hs : lookupEntry fs src = some (Entry.file content))
    (hd : lookupEntry fs dst = none) :
    rename os fs src dst =
      Except.ok (setEntry (removeEntry fs src) dst (Entry.file content)) ∧
    renameSync os fs src dst =
      Except.ok (setEntry (removeEntry fs src) dst (Entry.file content)) ∧
    lookupEntry (setEntry (removeEntry fs src) dst (Entry.file content)) src = none ∧
    lookupEntry (setEntry (removeEntry fs src) dst (Entry.file content)) dst =
      some (Entry.file content) := by
  have hne : dst ≠ src := by
    intro he
    rw [← he, hd] at hs
    cases hs
  have h1 : rename os fs src dst =
      Except.ok (setEntry (removeEntry fs src) dst (Entry.file content)) := by
    simp [rename, hs, hd]
  refine ⟨h1, h1, ?_, lookupEntry_setEntry_self _ _ _⟩
  rw [lookupEntry_setEntry_ne _ _ _ _ hne,
    lookupEntry_removeEntry_ne _ _ _ (fun hh => hne hh.symm),
    lookupEntry_removeEntry_self]

/-- Witness for C3 at a concrete one-file filesystem. -/
theorem rename_regular_file_moves_content_witness :
    rename OsFamily.posix [("testFile.txt", Entry.file [104, 105])]
        "testFile.txt" "renamedFile.txt" =
      Except.ok (setEntry (removeEntry [("testFile.txt", Entry.file [104, 105])]
        "testFile.txt") "renamedFile.txt" (Entry.file [104, 105])) ∧
    renameSync OsFamily.posix [("testFile.txt", Entry.file [104, 105])]
        "testFile.txt" "renamedFile.txt" =
      Except.ok (setEntry (removeEntry [("testFile.txt", Entry.file [104, 105])]
        "testFile.txt") "renamedFile.txt" (Entry.file [104, 105])) ∧
    lookupEntry (setEntry (removeEntry [("testFile.txt", Entry.file [104, 105])]
        "testFile.txt") "renamedFile.txt" (Entry.file [104, 105])) "testFile.txt" = none ∧
    lookupEntry (setEntry (removeEntry [("testFile.txt", Entry.file [104, 105])]
        "testFile.txt") "renamedFile.txt" (Entry.file [104, 105])) "renamedFile.txt" =
      some (Entry.file [104, 105]) :=
  rename_regular_file_moves_content OsFamily.posix
    [("testFile.txt", Entry.file [104, 105])] "testFile.txt" "renamedFile.txt"
    [104, 105] rfl rfl

/-- C7: renaming an existing regular file onto a path holding an existing
directory fails on every platform, for both rename and renameSync. -/
theorem rename_file_over_dir_fails (os : OsFamily) (fs : Fs) (src dst : String)
    (content : List Nat) (b : Bool)
    (hs : lookupEntry fs src = some (Entry.file content))
    (hd : lookupEntry fs dst = some (Entry.dir b)) :
    rename os fs src dst = Except.error ErrorKind.Generic ∧
    renameSync os fs src dst = Except.error ErrorKind.Generic := by
  have h1 : rename os fs src dst = Except.error ErrorKind.Generic := by
    simp [rename, hs, hd]
  exact ⟨h1, h1⟩

/-- Witness for C7 at a concrete filesystem, on both platforms folded into
one instance. -/
theorem rename_file_over_dir_fails_witness :
    rename OsFamily.windows [("f", Entry.file []), ("d", Entry.dir true)] "f" "d" =
      Except.error ErrorKind.Generic ∧
    renameSync OsFamily.windows [("f", Entry.file []), ("d", Entry.dir true)] "f" "d" =
      Except.error ErrorKind.Generic :=
  rename_file_over_dir_fails OsFamily.windows
    [("f", Entry.file []), ("d", Entry.dir true)] "f" "d" [] true rfl rfl

/-- C8: renaming an existing directory onto a path holding a symbolic link
fails, whatever path the link targets (existing file, existing directory,
or nothing), for both rename and renameSync. -/
theorem rename_dir_over_symlink_fails (os : OsFamily) (fs : Fs) (src dst : String)
    (b : Bool) (target : String)
    (hs : lookupEntry fs src = some (Entry.dir b))
    (hd : lookupEntry fs dst = some (Entry.symlink target)) :
    rename os fs src dst = Except.error ErrorKind.Generic ∧
    renameSync os fs src dst = Except.error ErrorKind.Generic := by
  have h1 : rename os fs src dst = Except.error ErrorKind.Generic := by
    simp [rename, hs, hd]
  exact ⟨h1, h1⟩

/-- Witness for C8 with a dangling symbolic link destination. -/
theorem rename_dir_over_symlink_fails_witness :
    rename OsFamily.posix
        [("testDir", Entry.dir true), ("symlinkPath", Entry.symlink ("non-existent"))]
        "testDir" "symlinkPath" = Except.error ErrorKind.Generic ∧
    renameSync OsFamily.posix
        [("testDir", Entry.dir true), ("symlinkPath", Entry.symlink ("non-existent"))]
        "testDir" "symlinkPath" = Except.error ErrorKind.Generic :=
  rename_dir_over_symlink_fails OsFamily.posix
    [("testDir", Entry.dir true), ("symlinkPath", Entry.symlink ("non-existent"))]
    "testDir" "symlinkPath" true ("non-existent") rfl rfl

/-- C4 counterexample: the claim quantifies over every existing destination
directory, but renaming a directory onto an existing non-empty directory
fails even on a POSIX-like system, at this concrete filesystem (and hence
does not succeed there). -/
theorem rename_dir_over_dir_posix_counterexample :
    rename OsFamily.posix [("emptyDir", Entry.dir true), ("fullDir", Entry.dir false)]
      "emptyDir" "fullDir" = Except.error ErrorKind.Generic ∧
    ∀ fs2 : Fs,
      rename OsFamily.posix [("emptyDir", Entry.dir true), ("fullDir", Entry.dir false)]
        "emptyDir" "fullDir" ≠ Except.ok fs2 := by
  refine ⟨rfl, ?_⟩
  intro fs2 hfs
  rw [show rename OsFamily.posix
      [("emptyDir", Entry.dir true), ("fullDir", Entry.dir false)] "emptyDir" "fullDir" =
      Except.error ErrorKind.Generic from rfl] at hfs
  cases hfs

/-- C4 as amended: renaming a directory onto another existing empty
directory succeeds on POSIX-like systems and fails on Windows-like systems;
onto an existing non-empty directory it fails on both; and onto an existing
regular file it succeeds on Windows-like systems and fails on POSIX-like
systems — for both rename and renameSync. -/
theorem rename_dir_over_dir_or_file_outcomes (os : OsFamily) (fs : Fs)
    (src dst : String) (b : Bool) (hs : lookupEntry fs src = some (Entry.dir b)) :
    (lookupEntry fs dst = some (Entry.dir true) →
      (os = OsFamily.posix →
        rename os fs src dst =
          Except.ok (setEntry (removeEntry fs src) dst (Entry.dir b)) ∧
        renameSync os fs src dst =
          Except.ok (setEntry (removeEntry fs src) dst (Entry.dir b))) ∧
      (os = OsFamily.windows →
        rename os fs src dst = Except.error ErrorKind.Generic ∧
        renameSync os fs src dst = Except.error ErrorKind.Generic)) ∧
    (lookupEntry fs dst = some (Entry.dir false) →
      rename os fs src dst = Except.error ErrorKind.Generic ∧
      renameSync os fs src dst = Except.error ErrorKind.Generic) ∧
    (∀ content, lookupEntry fs dst = some (Entry.file content) →
      (os = OsFamily.windows →
        rename os fs src dst =
          Except.ok (setEntry (removeEntry fs src) dst (Entry.dir b)) ∧
        renameSync os fs src dst =
          Except.ok (setEntry (removeEntry fs src) dst (Entry.dir b))) ∧
      (os = OsFamily.posix →
        rename os fs src dst = Except.error ErrorKind.Generic ∧
        renameSync os fs src dst = Except.error ErrorKind.Generic)) := by
  refine ⟨fun hd => ⟨fun hos => ?_, fun hos => ?_⟩, fun hd => ?_,
    fun content hd => ⟨fun hos => ?_, fun hos => ?_⟩⟩
  · subst hos
    have h1 : rename OsFamily.posix fs src dst =
        Except.ok (setEntry (removeEntry fs src) dst (Entry.dir b)) := by
      simp [rename, hs, hd]
    exact ⟨h1, h1⟩
  · subst hos
    have h1 : rename OsFamily.windows fs src dst = Except.error ErrorKind.Generic := by
      simp [rename, hs, hd]
    exact ⟨h1, h1⟩
  · have h1 : rename os fs src dst = Except.error ErrorKind.Generic := by
      simp [rename, hs, hd]
    exact ⟨h1, h1⟩
  · subst hos
    have h1 : rename OsFamily.windows fs src dst =
        Except.ok (setEntry (removeEntry fs src) dst (Entry.dir b)) := by
      simp [rename, hs, hd]
    exact ⟨h1, h1⟩
  · subst hos
    have h1 : rename OsFamily.posix fs src dst = Except.error ErrorKind.Generic := by
      simp [rename, hs, hd]
    exact ⟨h1, h1⟩

/-- Witness for the amended C4: on POSIX, a directory renamed onto an
existing empty directory succeeds, at a concrete filesystem. -/
theorem rename_dir_over_dir_or_file_outcomes_witness :
    rename OsFamily.posix [("testDir", Entry.dir true), ("anotherDir", Entry.dir true)]
        "testDir" "anotherDir" =
      Except.ok (setEntry
        (removeEntry [("testDir", Entry.dir true), ("anotherDir", Entry.dir true)]
          "testDir") "anotherDir" (Entry.dir true)) ∧
    renameSync OsFamily.posix
        [("testDir", Entry.dir true), ("anotherDir", Entry.dir true)]
        "testDir" "anotherDir" =
      Except.ok (setEntry
        (removeEntry [("testDir", Entry.dir true), ("anotherDir", Entry.dir true)]
          "testDir") "anotherDir" (Entry.dir true)) :=
  ((rename_dir_over_dir_or_file_outcomes OsFamily.posix
    [("testDir", Entry.dir true), ("anotherDir", Entry.dir true)]
    "testDir" "anotherDir" true rfl).1 rfl).1 rfl

/-- C2: reading an existing file whose byte content is the UTF-8 encoding
of a string returns exactly that string, for readTextFile and
readTextFileSync, on both the origin runtime and the fallback runtime
(the world quantifies over the runtime-detection flag). -/
theorem readTextFile_utf8_content (w : World) (path : String) (s : String)
    (options : Option ReadFileOptions)
    (hf : findEntry w.entries path = some (FileEntry.file (utf8Encode s))) :
    readTextFile w path options = Except.ok s ∧
    readTextFileSync w path = Except.ok s := by
  have hdec := decodeUtf8_utf8Encode s
  cases hD : w.isDeno <;>
    constructor <;>
      simp [readTextFile, readTextFileSync, Deno.readTextFile, Deno.readTextFileSync,
        readFile, readFileSync, hD, hf, hdec]

/-- Witness for C2 at a concrete fallback-runtime world holding the UTF-8
encoding of a two-character string. -/
theorem readTextFile_utf8_content_witness :
    readTextFile ⟨false, [("p.txt", FileEntry.file (utf8Encode ("hé")))]⟩ "p.txt" none =
      Except.ok ("hé") ∧
    readTextFileSync ⟨false, [("p.txt", FileEntry.file (utf8Encode ("hé")))]⟩ "p.txt" =
      Except.ok ("hé") :=
  readTextFile_utf8_content ⟨false, [("p.txt", FileEntry.file (utf8Encode ("hé")))]⟩
    "p.txt" "hé" none rfl

/-- C5: on the fallback runtime, every error surfaced by readTextFile or
readTextFileSync is the image under the mapping function of a native error,
and a raw unmapped native error is never surfaced. -/
theorem readTextFile_fallback_error_mapped (w : World) (path : String)
    (options : Option ReadFileOptions) (hD : w.isDeno = false) :
    (∀ err, readTextFile w path options = Except.error err →
      ∃ e, err = FsError.mapped (mapError e)) ∧
    (∀ ne, readTextFile w path options ≠ Except.error (FsError.native ne)) ∧
    (∀ err, readTextFileSync w path = Except.error err →
      ∃ e, err = FsError.mapped (mapError e)) ∧
    (∀ ne, readTextFileSync w path ≠ Except.error (FsError.native ne)) := by
  have hasync : ∀ err, readTextFile w path options = Except.error err →
      ∃ e, err = FsError.mapped (mapError e) := by
    intro err he
    cases hr : readFile w path options with
    | ok data =>
      rw [readTextFile_fallback_ok w path options data hD hr] at he
      cases he
    | error e =>
      rw [readTextFile_fallback_err w path options e hD hr] at he
      injection he with he2
      exact ⟨e, he2.symm⟩
  have hsync : ∀ err, readTextFileSync w path = Except.error err →
      ∃ e, err = FsError.mapped (mapError e) := by
    intro err he
    cases hr : readFileSync w path with
    | ok data =>
      rw [readTextFileSync_fallback_ok w path data hD hr] at he
      cases he
    | error e =>
      rw [readTextFileSync_fallback_err w path e hD hr] at he
      injection he with he2
      exact ⟨e, he2.symm⟩
  refine ⟨hasync, fun ne he => ?_, hsync, fun ne he => ?_⟩
  · obtain ⟨e, he2⟩ := hasync _ he
    cases he2
  · obtain ⟨e, he2⟩ := hsync _ he
    cases he2

/-- Witness for C5: at a concrete fallback world with no entries, the
surfaced error is not a raw native error. -/
theorem readTextFile_fallback_error_mapped_witness :
    readTextFile ⟨false, []⟩ "missing.txt" none ≠
      Except.error (FsError.native ⟨"ENOENT"⟩) :=
  (readTextFile_fallback_error_mapped ⟨false, []⟩ "missing.txt" none rfl).2.1 ⟨"ENOENT"⟩

/-- C6 counterexample: in the no-configuration case the origin primitive
does not receive the absent value the caller supplied; the source spreads
the configuration into a fresh object, so the primitive receives a present,
empty options object. -/
theorem denoReadTextFileArg_not_identity :
    denoReadTextFileArg none ≠ (none : Option ReadFileOptions) ∧
    denoReadTextFileArg none = some ⟨none⟩ := by
  exact ⟨fun h => Option.noConfusion h, rfl⟩

/-- C6 as amended: on the origin runtime, readTextFile delegates directly
to the origin runtime's native asynchronous read-text primitive, passing
the spread of the caller's configuration: every supplied configuration
field is forwarded unchanged, but the primitive always receives a present
options object — in the no-configuration case an empty one rather than the
absent value. -/
theorem readTextFile_origin_delegation (w : World) (path : String)
    (options : Option ReadFileOptions) (hD : w.isDeno = true) :
    readTextFile w path options = Deno.readTextFile w path (denoReadTextFileArg options) ∧
    (∀ o, options = some o → denoReadTextFileArg options = some o) ∧
    denoReadTextFileArg options ≠ none := by
  refine ⟨by simp [readTextFile, hD], ?_, fun h => Option.noConfusion h⟩
  intro o ho
  subst ho
  rfl

/-- Witness for the amended C6 at a concrete origin-runtime world. -/
theorem readTextFile_origin_delegation_witness :
    readTextFile ⟨true, []⟩ "p.txt" none =
      Deno.readTextFile ⟨true, []⟩ "p.txt" (denoReadTextFileArg none) :=
  (readTextFile_origin_delegation ⟨true, []⟩ "p.txt" none rfl).1

/-- C9: on the fallback runtime the decode step never fails: whenever the
byte-reading primitive yields bytes — malformed UTF-8 included — the
read-text call returns the decoded string, and every surfaced error is the
mapped image of an error of the byte read itself. -/
theorem readTextFile_fallback_decode_total (w : World) (path : String)
    (options : Option ReadFileOptions) (hD : w.isDeno = false) :
    (∀ data, readFile w path options = Except.ok data →
      readTextFile w path options = Except.ok (decodeUtf8 data)) ∧
    (∀ err, readTextFile w path options = Except.error err →
      ∃ e, readFile w path options = Except.error e ∧
        err = FsError.mapped (mapError e)) ∧
    (∀ data, readFileSync w path = Except.ok data →
      readTextFileSync w path = Except.ok (decodeUtf8 data)) ∧
    (∀ err, readTextFileSync w path = Except.error err →
      ∃ e, readFileSync w path = Except.error e ∧
        err = FsError.mapped (mapError e)) := by
  refine ⟨fun data hr => readTextFile_fallback_ok w path options data hD hr,
    fun err he => ?_,
    fun data hr => readTextFileSync_fallback_ok w path data hD hr,
    fun err he => ?_⟩
  · cases hr : readFile w path options with
    | ok data =>
      rw [readTextFile_fallback_ok w path options data hD hr] at he
      cases he
    | error e =>
      rw [readTextFile_fallback_err w path options e hD hr] at he
      injection he with he2
      exact ⟨e, rfl, he2.symm⟩
  · cases hr : readFileSync w path with
    | ok data =>
      rw [readTextFileSync_fallback_ok w path data hD hr] at he
      cases he
    | error e =>
      rw [readTextFileSync_fallback_err w path e hD hr] at he
      injection he with he2
      exact ⟨e, rfl, he2.symm⟩

/-- Witness for C9 at a concrete fallback world whose file content is a
malformed UTF-8 byte sequence: the read still returns a string. -/
theorem readTextFile_fallback_decode_total_witness :
    readTextFile ⟨false, [("bad.bin", FileEntry.file [0xFF, 0x41])]⟩ "bad.bin" none =
      Except.ok (decodeUtf8 [0xFF, 0x41]) :=
  (readTextFile_fallback_decode_total ⟨false, [("bad.bin", FileEntry.file [0xFF, 0x41])]⟩
    "bad.bin" none rfl).1 [0xFF, 0x41] rfl

/-- C10: readTextFileSync behaves identically to readTextFile called
without configuration — same string on success and same error on failure —
the underlying primitives being modelled over one store, which realises the
premise that they yield the same bytes or the same native error. -/
theorem readTextFileSync_eq_readTextFile (w : World) (path : String) :
    readTextFileSync w path = readTextFile w path none := by
  cases hD : w.isDeno <;>
    simp [readTextFile, readTextFileSync, Deno.readTextFile, Deno.readTextFileSync,
      readFile, readFileSync, denoReadTextFileArg, hD]
